import Mathlib

/-!
Verification of the snubot OSINT aggregation core against its design notes.

The development shallowly embeds the deep crawler (`deep-crawler.ts`), the
risk scorer (`calculateScamScore`) and the master aggregation entry point
(`master-recon.ts`).  External collaborators (the headless browser, the
search engine, the per-site source adapters, and the JS regex engine for
the patterns no theorem depends on) are modelled as explicit oracle
parameters, so every theorem quantifies over all of their behaviours.
-/

namespace Snubot

/-! ## List and string utilities mirroring the JavaScript operations used -/

/-- JS `[...new Set(xs)]`: keep the first occurrence of each element,
in encounter order.  `seen` accumulates the elements already kept. -/
def dedupAux {α : Type} [DecidableEq α] : List α → List α → List α
  | _, [] => []
  | seen, x :: xs =>
      if x ∈ seen then dedupAux seen xs else x :: dedupAux (x :: seen) xs

/-- JS `[...new Set(xs)]`. -/
def dedup {α : Type} [DecidableEq α] (l : List α) : List α := dedupAux [] l

theorem mem_dedupAux {α : Type} [DecidableEq α] (a : α) :
    ∀ (l seen : List α), a ∈ dedupAux seen l ↔ a ∈ l ∧ a ∉ seen := by
  intro l
  induction l with
  | nil => intro seen; simp [dedupAux]
  | cons x xs ih =>
      intro seen
      by_cases hx : x ∈ seen
      · simp only [dedupAux, if_pos hx, ih, List.mem_cons]
        constructor
        · rintro ⟨h1, h2⟩; exact ⟨Or.inr h1, h2⟩
        · rintro ⟨h1, h2⟩
          rcases h1 with h1 | h1
          · exact absurd (h1 ▸ hx) h2
          · exact ⟨h1, h2⟩
      · simp only [dedupAux, if_neg hx, List.mem_cons, ih]
        constructor
        · rintro (rfl | ⟨h1, h2⟩)
          · exact ⟨Or.inl rfl, hx⟩
          · refine ⟨Or.inr h1, fun hs => h2 ?_⟩
            simp [hs]
        · rintro ⟨h1 | h1, h2⟩
          · exact Or.inl h1
          · by_cases hax : a = x
            · exact Or.inl hax
            · exact Or.inr ⟨h1, by simp [hax, h2]⟩

theorem mem_dedup {α : Type} [DecidableEq α] {a : α} {l : List α} :
    a ∈ dedup l ↔ a ∈ l := by
  simp [dedup, mem_dedupAux]

/-- Character-list version of JS `String.prototype.startsWith`. -/
def startsWithCl : List Char → List Char → Bool
  | _, [] => true
  | [], _ :: _ => false
  | h :: hs, n :: ns => h == n && startsWithCl hs ns

/-- Character-list version of JS `String.prototype.includes`. -/
def containsSub : List Char → List Char → Bool
  | hay, needle =>
      match hay with
      | [] => startsWithCl [] needle
      | _ :: rest => startsWithCl hay needle || containsSub rest needle

/-- Character-list version of JS `String.prototype.indexOf` (callers only
use it after an `includes` check, so the not-found value is irrelevant). -/
def indexOfSub : List Char → List Char → Nat
  | hay, needle =>
      match hay with
      | [] => 0
      | _ :: rest =>
          if startsWithCl hay needle then 0 else indexOfSub rest needle + 1

/-- JS `String.prototype.includes` on Lean strings. -/
def strContains (s sub : String) : Bool := containsSub s.toList sub.toList

/-- JS `String.prototype.startsWith` on Lean strings. -/
def strStartsWith (s p : String) : Bool := startsWithCl s.toList p.toList

/-- JS `String.prototype.toLowerCase` (ASCII range, which is all the
source's keyword tables use). -/
def toLowerCl (l : List Char) : List Char := l.map Char.toLower

/-- JS `String.prototype.trim`. -/
def trimCl (l : List Char) : List Char :=
  ((l.dropWhile Char.isWhitespace).reverse.dropWhile Char.isWhitespace).reverse

/-! ## The risk scorer: `calculateScamScore` (deep-crawler.ts 245-276) -/

/-- The fixed severity table, in JS `Object.entries` (insertion) order. -/
def severityMap : List (String × Int) :=
  [("rug pull", 25), ("rugpull", 25), ("scam", 20), ("scammer", 25),
   ("fraud", 20), ("exit scam", 30), ("ponzi", 25), ("honeypot", 20),
   ("stolen", 15), ("warning", 10)]

/-- The inner loop of `calculateScamScore`: the first table entry whose key
is a substring of the mention's keyword contributes its points, then the
loop breaks; no entry matching contributes nothing. -/
def mentionPoints (keyword : String) : Int :=
  match severityMap.find? (fun e => strContains keyword e.1) with
  | some e => e.2
  | none => 0

/-- `calculateScamScore(mentions, trustIndicators)`: sum per-mention
points, subtract 5 per trust indicator, clamp to [0, 100].
A mention is its `(keyword, context)` pair; only the keyword is read. -/
def calculateScamScore (mentions : List (String × String))
    (trustIndicators : List String) : Int :=
  let score := mentions.foldl (fun acc m => acc + mentionPoints m.1) 0
  let score := score - 5 * trustIndicators.length
  max 0 (min 100 score)

theorem mentionPoints_nonneg (k : String) : 0 ≤ mentionPoints k := by
  unfold mentionPoints
  cases hf : severityMap.find? (fun e => strContains k e.1) with
  | none => simp
  | some e =>
      have hmem : e ∈ severityMap := List.mem_of_find?_eq_some hf
      have : ∀ x ∈ severityMap, (0 : Int) ≤ x.2 := by decide
      exact this e hmem

theorem foldl_points_add (mentions : List (String × String))
    (a : Int) :
    mentions.foldl (fun acc m => acc + mentionPoints m.1) a
      = a + mentions.foldl (fun acc m => acc + mentionPoints m.1) 0 := by
  induction mentions generalizing a with
  | nil => simp
  | cons m ms ih =>
      simp only [List.foldl_cons]
      rw [ih (a + mentionPoints m.1), ih (0 + mentionPoints m.1)]
      ring

theorem clamp_mono {a b : Int} (h : a ≤ b) :
    max 0 (min 100 a) ≤ max 0 (min 100 b) := by
  have h1 : min 100 a ≤ min 100 b := min_le_min le_rfl h
  exact max_le_max le_rfl h1

/-! ## Lead extraction patterns (deep-crawler.ts 27-39, 88-89, 165-240) -/

/-- Limits to prevent infinite crawling (deep-crawler.ts 22-23). -/
def MAX_PAGES_PER_DORK : Nat := 5

def MAX_TOTAL_PAGES : Nat := 30

/-- Scam-related keywords, in source order (deep-crawler.ts 28-32). -/
def SCAM_KEYWORDS : List String :=
  ["rug pull", "rugpull", "scam", "scammer", "fraud", "exit scam",
   "ponzi", "honeypot", "fake project", "stolen funds", "dumped tokens",
   "abandoned project", "dev disappeared", "rug pulled", "warning"]

/-- Character class `[a-fA-F0-9]` of `CRYPTO_PATTERNS.ethereumAddress`. -/
def isHexDigit (c : Char) : Bool :=
  (decide ('0' ≤ c) && decide (c ≤ '9')) ||
  (decide ('a' ≤ c) && decide (c ≤ 'f')) ||
  (decide ('A' ≤ c) && decide (c ≤ 'F'))

/-- Character class `[1-9A-HJ-NP-Za-km-z]` of
`CRYPTO_PATTERNS.solanaAddress` (declared in the source, applied nowhere). -/
def isBase58Char (c : Char) : Bool :=
  (decide ('1' ≤ c) && decide (c ≤ '9')) ||
  (decide ('A' ≤ c) && decide (c ≤ 'H')) ||
  (decide ('J' ≤ c) && decide (c ≤ 'N')) ||
  (decide ('P' ≤ c) && decide (c ≤ 'Z')) ||
  (decide ('a' ≤ c) && decide (c ≤ 'k')) ||
  (decide ('m' ≤ c) && decide (c ≤ 'z'))

/-- Take exactly `n` hex digits, returning them and the remainder. -/
def takeHex : Nat → List Char → Option (List Char × List Char)
  | 0, rest => some ([], rest)
  | _ + 1, [] => none
  | n + 1, c :: rest =>
      if isHexDigit c then
        match takeHex n rest with
        | some (h, r) => some (c :: h, r)
        | none => none
      else none

/-- One attempted match of `0x[a-fA-F0-9]{40}` at the current position:
the literal `0x` followed by exactly 40 hex digits; returns the matched
token and the remainder after it. -/
def ethTryMatch (l : List Char) : Option (List Char × List Char) :=
  match l with
  | '0' :: 'x' :: rest2 =>
      match takeHex 40 rest2 with
      | some (h, r) => some ('0' :: 'x' :: h, r)
      | none => none
  | _ => none

/-- Global-flag scan of the JS regex `0x[a-fA-F0-9]{40}`: try a match at
each position left to right; on success continue after the match
(non-overlapping), on failure advance one character.  `fuel` bounds the
recursion; any `fuel ≥ hay.length` gives the full scan. -/
def ethScanAux : Nat → List Char → List (List Char)
  | 0, _ => []
  | _ + 1, [] => []
  | fuel + 1, c :: rest =>
      match ethTryMatch (c :: rest) with
      | some (tok, r) => tok :: ethScanAux fuel r
      | none => ethScanAux fuel rest

/-- `text.match(CRYPTO_PATTERNS.ethereumAddress) || []`. -/
def ethScan (l : List Char) : List (List Char) := ethScanAux l.length l

/-- The scam-keyword loop of `crawlPage` (deep-crawler.ts 204-213): for
each keyword contained in the lower-cased text, capture a ±50-character
window around its first occurrence (the index is computed on the
lower-cased text, the slice is taken from the original text) and trim it. -/
def scamContexts (text : List Char) : List (List Char) :=
  let lower := toLowerCl text
  SCAM_KEYWORDS.filterMap (fun kw =>
    let kwl := kw.toList
    if containsSub lower kwl then
      let idx := indexOfSub lower kwl
      let start := idx - 50
      let stop := min text.length (idx + kwl.length + 50)
      some (trimCl ((text.drop start).take (stop - start)))
    else none)

/-- JS `e.toLowerCase()`. -/
def lowerStr (s : String) : String := String.mk (toLowerCl s.toList)

/-- JS `u.replace('@', '')`: drop the first `@` only. -/
def removeFirstAt : List Char → List Char
  | [] => []
  | c :: rest => if c = '@' then rest else c :: removeFirstAt rest

def stripAt (s : String) : String := String.mk (removeFirstAt s.toList)

/-! ## The deep crawler (deep-crawler.ts) -/

/-- What the Page Fetcher (headless browser) yields for one URL. -/
structure FetchedPage where
  title : String
  html : String
  text : String
deriving Repr, DecidableEq

/-- The JS regex engine for the three pattern families no claim depends
on (`EMAIL_PATTERN`, `USERNAME_PATTERN`, the six social-link patterns),
kept as an oracle: each function stands for the raw `String.match` result
list of the corresponding pattern.  All post-processing (lower-casing,
`@`-stripping, set-dedup, slicing) is embedded from the source. -/
structure TextMatchers where
  emailMatches : String → List String
  usernameMatches : String → List String
  socialMatches : String → List String

/-- `CrawlResult` (deep-crawler.ts 48-57).  Note the source interface has
exactly these eight fields and no error field. -/
structure CrawlResult where
  url : String
  title : String
  emails : List String
  usernames : List String
  wallets : List String
  scamMentions : List String
  socialLinks : List String
  rawSnippet : String
deriving Repr, DecidableEq

/-- The initial `result` object of `crawlPage` (deep-crawler.ts 166-175),
which is also what a failed fetch returns unchanged. -/
def emptyCrawlResult (url : String) : CrawlResult :=
  { url := url, title := "", emails := [], usernames := [], wallets := [],
    scamMentions := [], socialLinks := [], rawSnippet := "" }

/-- `crawlPage` (deep-crawler.ts 165-240).  A fetch failure (`none`) is
the caught exception path: the initial result object is returned with no
field touched. -/
def crawlPage (m : TextMatchers) (fetch : String → Option FetchedPage)
    (url : String) : CrawlResult :=
  match fetch url with
  | none => emptyCrawlResult url
  | some p =>
      { url := url
        title := p.title
        emails := dedup ((m.emailMatches p.text).map lowerStr)
        usernames := dedup ((m.usernameMatches p.text).map stripAt)
        wallets := ((dedup (ethScan p.text.toList)).take 5).map String.mk
        scamMentions := (scamContexts p.text.toList).map String.mk
        socialLinks := (dedup (m.socialMatches p.html)).take 10
        rawSnippet := String.mk (p.text.toList.take 1000) }

/-- A scam mention of `DeepCrawlResult` (deep-crawler.ts 71-75). -/
structure Mention where
  keyword : String
  context : String
  url : String
deriving Repr, DecidableEq

/-- `DeepCrawlResult` (deep-crawler.ts 59-86).  `executionTimeMs` is wall
clock and is not modelled; the deadline checks it feeds are modelled by
the `timeUp` oracle below. -/
structure DeepCrawlResult where
  originalTarget : String
  pagesAnalyzed : Nat
  allEmails : List String
  allUsernames : List String
  allWallets : List String
  allSocialLinks : List String
  scamMentions : List Mention
  scamScore : Int
  redFlags : List String
  trustIndicators : List String
  crawledPages : List CrawlResult
  errors : List String
deriving Repr, DecidableEq

/-- The environment of one crawl: the regex oracle, the Search Executor
(the raw `.result__a` hrefs of one query; a transport failure is the
special case of returning no links), the Page Fetcher, and the deadline
oracle (`timeUp k` is the outcome of the k-th `Date.now()` deadline
comparison). -/
structure CrawlEnv where
  matchers : TextMatchers
  search : String → List String
  fetch : String → Option FetchedPage
  timeUp : Nat → Bool

/-- `executeSearch` (deep-crawler.ts 126-160): filter the raw hrefs and
keep the first `MAX_PAGES_PER_DORK`. -/
def executeSearch (env : CrawlEnv) (query : String) : List String :=
  ((env.search query).filter (fun href =>
    strStartsWith href "http" &&
    !(strContains href "duckduckgo.com") &&
    !(strContains href "search.yahoo.com") &&
    !(strContains href "bing.com"))).take MAX_PAGES_PER_DORK

/-- `generateCryptoScamDorks` (deep-crawler.ts 94-120). -/
def generateCryptoScamDorks (username : String) (emails : List String) :
    List String :=
  let q := "\""
  [q ++ username ++ q ++ " rug pull OR rugpull",
   q ++ username ++ q ++ " scam OR scammer",
   q ++ username ++ q ++ " crypto project",
   q ++ username ++ q ++ " token launch OR mint",
   q ++ username ++ q ++ " solana OR ethereum OR binance",
   q ++ username ++ q ++ " previous project",
   q ++ username ++ q ++ " founder OR developer",
   q ++ username ++ q ++ " site:twitter.com OR site:x.com",
   q ++ username ++ q ++ " site:reddit.com crypto",
   q ++ username ++ q ++ " site:bitcointalk.org"]
  ++ (emails.take 3).foldr (fun e acc =>
       (q ++ e ++ q ++ " crypto OR blockchain") ::
       (q ++ e ++ q ++ " rug OR scam") :: acc) []

/-- The dork loop of `deepCrawl` (deep-crawler.ts 322-339): per dork,
break on the deadline, run the search, and append each result URL that is
not in `visited` while the queue holds fewer than `MAX_TOTAL_PAGES`
entries.  (`visited` is still empty throughout this phase — it only
gains members in the later crawl loop — but the check is kept as in the
source.)  Returns the queue and the next deadline-check index. -/
def buildQueue (env : CrawlEnv) (visited : List String) :
    List String → List String → Nat → List String × Nat
  | [], queue, tick => (queue, tick)
  | dork :: rest, queue, tick =>
      if env.timeUp tick then (queue, tick + 1)
      else
        let urls := executeSearch env dork
        let queue2 := urls.foldl
          (fun acc u =>
            if u ∉ visited ∧ acc.length < MAX_TOTAL_PAGES
            then acc ++ [u] else acc) queue
        buildQueue env visited rest queue2 (tick + 1)

/-- The mutable part of `deepCrawl`'s result during the crawl loop,
together with the visited set and the deadline-check index. -/
structure CrawlState where
  visited : List String
  crawledPages : List CrawlResult
  pagesAnalyzed : Nat
  allEmails : List String
  allUsernames : List String
  allWallets : List String
  allSocialLinks : List String
  scamMentions : List Mention
  tick : Nat

/-- Keyword re-derivation for an aggregated mention (deep-crawler.ts
363): the first `SCAM_KEYWORDS` entry contained in the context, or
`"unknown"`. -/
def deriveKeyword (mention : String) : String :=
  (SCAM_KEYWORDS.find? (fun k =>
    containsSub (toLowerCl mention.toList) k.toList)).getD "unknown"

/-- The crawl loop of `deepCrawl` (deep-crawler.ts 344-370): skip
already-visited URLs, break on the deadline or the page budget, otherwise
mark visited, crawl, and aggregate. -/
def crawlLoop (env : CrawlEnv) : List String → CrawlState → CrawlState
  | [], s => s
  | url :: rest, s =>
      if url ∈ s.visited then crawlLoop env rest s
      else if env.timeUp s.tick then { s with tick := s.tick + 1 }
      else if s.pagesAnalyzed ≥ MAX_TOTAL_PAGES then s
      else
        let r := crawlPage env.matchers env.fetch url
        let newMentions : List Mention := r.scamMentions.map (fun m =>
          { keyword := deriveKeyword m, context := m, url := url })
        crawlLoop env rest
          { visited := url :: s.visited
            crawledPages := s.crawledPages ++ [r]
            pagesAnalyzed := s.pagesAnalyzed + 1
            allEmails := s.allEmails ++ r.emails
            allUsernames := s.allUsernames ++ r.usernames
            allWallets := s.allWallets ++ r.wallets
            allSocialLinks := s.allSocialLinks ++ r.socialLinks
            scamMentions := s.scamMentions ++ newMentions
            tick := s.tick + 1 }

/-- `deepCrawl` (deep-crawler.ts 281-414).  The `errors` array only gains
entries from the outer try/catch around browser transport failures, which
are outside this pure model, so it is the empty list here; within the
loops every failure is local (a failed search yields no URLs, a failed
fetch yields an untouched result object). -/
def deepCrawl (env : CrawlEnv) (target : String)
    (initialEmails initialUsernames : List String) : DeepCrawlResult :=
  let dorks := generateCryptoScamDorks target initialEmails
  let bq := buildQueue env [] dorks [] 0
  let s0 : CrawlState :=
    { visited := [], crawledPages := [], pagesAnalyzed := 0,
      allEmails := initialEmails, allUsernames := target :: initialUsernames,
      allWallets := [], allSocialLinks := [], scamMentions := [],
      tick := bq.2 }
  let s := crawlLoop env bq.1 s0
  let allEmails := dedup s.allEmails
  let allUsernames := dedup s.allUsernames
  let allWallets := dedup s.allWallets
  let allSocialLinks := dedup s.allSocialLinks
  let redFlags :=
    (if s.scamMentions.length > 0 then
      ["⚠️ Found " ++ toString s.scamMentions.length ++ " scam-related mentions"]
     else [])
    ++ (if s.scamMentions.any (fun m => strContains m.keyword "rug") then
      ["🚨 RUG PULL mentioned in search results"] else [])
    ++ (if allWallets.length > 3 then
      ["💰 Multiple wallet addresses found (" ++ toString allWallets.length ++ ")"]
     else [])
  let trustIndicators :=
    (if allSocialLinks.length > 5 then
      ["✅ Extensive social media presence"] else [])
    ++ (if s.pagesAnalyzed > 10 ∧ s.scamMentions.length = 0 then
      ["✅ No scam mentions found in 10+ pages"] else [])
  { originalTarget := target
    pagesAnalyzed := s.pagesAnalyzed
    allEmails := allEmails
    allUsernames := allUsernames
    allWallets := allWallets
    allSocialLinks := allSocialLinks
    scamMentions := s.scamMentions
    scamScore := calculateScamScore
      (s.scamMentions.map (fun m => (m.keyword, m.context))) trustIndicators
    redFlags := redFlags
    trustIndicators := trustIndicators
    crawledPages := s.crawledPages
    errors := [] }

/-! ## The master aggregation entry point (master-recon.ts) -/

/-- C5: the risk score is monotone in its inputs: appending a mention
whose keyword has a known severity weight never decreases
`calculateScamScore`, appending a trust indicator never increases it,
and the result always lies in the [0, 100] clamp. -/
theorem calculateScamScore_monotone_clamped
    (M : List (String × String)) (m : String × String)
    (T : List String) (t : String) :
    ((severityMap.find? (fun e => strContains m.1 e.1)).isSome →
      calculateScamScore M T ≤ calculateScamScore (M ++ [m]) T) ∧
    calculateScamScore M (T ++ [t]) ≤ calculateScamScore M T ∧
    0 ≤ calculateScamScore M T ∧ calculateScamScore M T ≤ 100 := by
  refine ⟨fun _ => ?_, ?_, ?_, ?_⟩
  · have hsum : (M ++ [m]).foldl (fun acc x => acc + mentionPoints x.1) 0
        = M.foldl (fun acc x => acc + mentionPoints x.1) 0 + mentionPoints m.1 := by
      rw [List.foldl_append]; simp
    have hle : M.foldl (fun acc x => acc + mentionPoints x.1) 0
          - 5 * (T.length : Int)
        ≤ (M ++ [m]).foldl (fun acc x => acc + mentionPoints x.1) 0
          - 5 * (T.length : Int) := by
      rw [hsum]
      have := mentionPoints_nonneg m.1
      omega
    exact clamp_mono hle
  · have hle : M.foldl (fun acc x => acc + mentionPoints x.1) 0
          - 5 * (((T ++ [t]).length : Nat) : Int)
        ≤ M.foldl (fun acc x => acc + mentionPoints x.1) 0
          - 5 * (T.length : Int) := by
      simp only [List.length_append, List.length_cons, List.length_nil]
      push_cast
      omega
    exact clamp_mono hle
  · exact le_max_left 0 _
  · exact max_le (by norm_num) (min_le_left 100 _)

/-- Closed witness for `calculateScamScore_monotone_clamped` at a
concrete mention with a known severity weight and a concrete trust
indicator. -/
theorem calculateScamScore_monotone_clamped_witness :
    calculateScamScore [] [] ≤ calculateScamScore [("scam", "ctx")] [] ∧
    calculateScamScore [("scam", "ctx")] ["trusted"]
      ≤ calculateScamScore [("scam", "ctx")] [] :=
  ⟨(calculateScamScore_monotone_clamped [] ("scam", "ctx") [] "trusted").1
      (by decide),
   (calculateScamScore_monotone_clamped [("scam", "ctx")] ("scam", "ctx")
      [] "trusted").2.1⟩

/-- C6 counterexample: the keyword "unknown" (the crawler's fallback
keyword) matches no severity-table entry, yet a single such mention with
no trust indicators scores exactly 0 — the code adds no default minimum,
contradicting the claim that the score is strictly positive. -/
theorem scamScore_unknown_keyword_zero :
    severityMap.all (fun e => !(strContains "unknown" e.1)) = true ∧
    calculateScamScore [("unknown", "some context")] [] = 0 := by
  decide

/-- C6 amended: a mention whose keyword matches no entry of the severity
table contributes zero; scoring a single such mention with no trust
indicators yields exactly 0. -/
theorem scamScore_unmatched_mention_contributes_zero
    (m : String × String)
    (h : severityMap.find? (fun e => strContains m.1 e.1) = none) :
    calculateScamScore [m] [] = 0 := by
  simp [calculateScamScore, mentionPoints, h]

/-- Closed witness for `scamScore_unmatched_mention_contributes_zero`. -/
theorem scamScore_unmatched_mention_contributes_zero_witness :
    calculateScamScore [("unknown", "")] [] = 0 :=
  scamScore_unmatched_mention_contributes_zero ("unknown", "") (by decide)

/-- C7 counterexample: a single "exit scam" mention contributes 20, the
same amount as a single "scam" mention, not strictly more — the "scam"
table entry precedes "exit scam" in insertion order and substring-matches
the keyword "exit scam" first, so the per-mention loop breaks at 20. -/
theorem severity_exit_scam_not_above_scam :
    calculateScamScore [("exit scam", "c")] [] = 20 ∧
    calculateScamScore [("scam", "c")] [] = 20 := by
  decide

/-- C7 amended: with no trust indicators, a single "exit scam" mention
contributes exactly as much as a single "scam" mention (both 20 points,
via the earlier "scam" entry of the table), and both contribute strictly
more than a single "warning" mention (10 points). -/
theorem severity_ordering_with_substring_break :
    calculateScamScore [("exit scam", "c")] []
      = calculateScamScore [("scam", "c")] [] ∧
    calculateScamScore [("scam", "c")] [] = 20 ∧
    calculateScamScore [("warning", "c")] [] = 10 ∧
    calculateScamScore [("warning", "c")] []
      < calculateScamScore [("scam", "c")] [] := by
  decide

/-! ## Claims about the deep crawler -/

theorem crawlPage_url (m : TextMatchers) (fetch : String → Option FetchedPage)
    (url : String) : (crawlPage m fetch url).url = url := by
  unfold crawlPage
  cases fetch url <;> rfl

theorem crawlLoop_pages_le (env : CrawlEnv) :
    ∀ (q : List String) (s : CrawlState),
      s.pagesAnalyzed ≤ MAX_TOTAL_PAGES →
      (crawlLoop env q s).pagesAnalyzed ≤ MAX_TOTAL_PAGES := by
  intro q
  induction q with
  | nil => intro s h; simpa [crawlLoop] using h
  | cons url rest ih =>
      intro s h
      rw [crawlLoop]
      split
      · exact ih s h
      · split
        · simpa using h
        · split
          · simpa using h
          · rename_i hvis htime hbudget
            apply ih
            simp only [MAX_TOTAL_PAGES] at hbudget ⊢
            omega

/-- C1: for every behaviour of the search executor, the page fetcher and
the deadline oracle — in particular one where every query yields the
maximum number of fresh unvisited URLs — a `deepCrawl` run (a total
function of this model, so it always terminates) satisfies
`pagesAnalyzed ≤ MAX_TOTAL_PAGES`, and hitting the budget is a normal
exit: the `errors` array of the returned result is empty. -/
theorem deepCrawl_budget_termination (env : CrawlEnv) (target : String)
    (initialEmails initialUsernames : List String) :
    (deepCrawl env target initialEmails initialUsernames).pagesAnalyzed
      ≤ MAX_TOTAL_PAGES ∧
    (deepCrawl env target initialEmails initialUsernames).errors = [] := by
  constructor
  · show (crawlLoop env _ _).pagesAnalyzed ≤ MAX_TOTAL_PAGES
    exact crawlLoop_pages_le env _ _ (by simp [MAX_TOTAL_PAGES])
  · rfl

theorem crawlLoop_urls_nodup (env : CrawlEnv) :
    ∀ (q : List String) (s : CrawlState),
      (s.crawledPages.map (fun r => r.url)).Nodup →
      (∀ r ∈ s.crawledPages, r.url ∈ s.visited) →
      ((crawlLoop env q s).crawledPages.map (fun r => r.url)).Nodup := by
  intro q
  induction q with
  | nil => intro s h _; simpa [crawlLoop] using h
  | cons url rest ih =>
      intro s h hinv
      rw [crawlLoop]
      split
      · exact ih s h hinv
      · split
        · simpa using h
        · split
          · simpa using h
          · rename_i hvis htime hbudget
            apply ih
            · simp only [List.map_append, List.map_cons, List.map_nil]
              rw [List.nodup_append]
              refine ⟨h, List.nodup_singleton _, ?_⟩
              intro a ha hb
              rcases List.mem_map.mp ha with ⟨r, hr, hru⟩
              have hmem : r.url ∈ s.visited := hinv r hr
              have hb2 : a = (crawlPage env.matchers env.fetch url).url := by
                simpa using hb
              rw [hru, hb2, crawlPage_url] at hmem
              exact hvis hmem
            · intro r hr
              simp only [List.mem_append, List.mem_singleton] at hr
              rcases hr with hr | hr
              · exact List.mem_cons_of_mem _ (hinv r hr)
              · subst hr
                simp [crawlPage_url]

/-- C2: within one `deepCrawl` run every URL is crawled at most once —
the URLs of the returned `crawledPages` list are pairwise distinct, for
every behaviour of the search executor (in particular when several
queries return the same URL). -/
theorem deepCrawl_visit_once (env : CrawlEnv) (target : String)
    (initialEmails initialUsernames : List String) :
    ((deepCrawl env target initialEmails initialUsernames).crawledPages.map
      (fun r => r.url)).Nodup := by
  show ((crawlLoop env _ _).crawledPages.map (fun r => r.url)).Nodup
  exact crawlLoop_urls_nodup env _ _ (by simp) (by simp)

theorem mem_foldl_enqueue (visited : List String) :
    ∀ (urls acc : List String) (u : String),
      u ∈ urls.foldl (fun acc2 u2 =>
        if u2 ∉ visited ∧ acc2.length < MAX_TOTAL_PAGES
        then acc2 ++ [u2] else acc2) acc →
      u ∈ acc ∨ u ∈ urls := by
  intro urls
  induction urls with
  | nil => intro acc u h; exact Or.inl (by simpa using h)
  | cons x xs ih =>
      intro acc u h
      simp only [List.foldl_cons] at h
      rcases ih _ u h with h2 | h2
      · by_cases hc : x ∉ visited ∧ acc.length < MAX_TOTAL_PAGES
        · rw [if_pos hc] at h2
          rcases List.mem_append.mp h2 with h3 | h3
          · exact Or.inl h3
          · simp only [List.mem_singleton] at h3
            subst h3
            exact Or.inr (List.mem_cons_self _ _)
        · rw [if_neg hc] at h2
          exact Or.inl h2
      · exact Or.inr (List.mem_cons_of_mem _ h2)

theorem buildQueue_mem (env : CrawlEnv) (visited : List String) :
    ∀ (dorks queue : List String) (tick : Nat) (u : String),
      u ∈ (buildQueue env visited dorks queue tick).1 →
      u ∈ queue ∨ ∃ d ∈ dorks, u ∈ executeSearch env d := by
  intro dorks
  induction dorks with
  | nil => intro queue tick u h; exact Or.inl (by simpa [buildQueue] using h)
  | cons d rest ih =>
      intro queue tick u h
      rw [buildQueue] at h
      split at h
      · exact Or.inl (by simpa using h)
      · rcases ih _ _ u h with h2 | h2
        · rcases mem_foldl_enqueue visited _ queue u h2 with h3 | h3
          · exact Or.inl h3
          · exact Or.inr ⟨d, List.mem_cons_self _ _, h3⟩
        · rcases h2 with ⟨d2, hd2, hu2⟩
          exact Or.inr ⟨d2, List.mem_cons_of_mem _ hd2, hu2⟩

theorem crawlLoop_crawled_sub (env : CrawlEnv) :
    ∀ (q : List String) (s : CrawlState) (r : CrawlResult),
      r ∈ (crawlLoop env q s).crawledPages →
      r ∈ s.crawledPages ∨ r.url ∈ q := by
  intro q
  induction q with
  | nil => intro s r h; exact Or.inl (by simpa [crawlLoop] using h)
  | cons url rest ih =>
      intro s r h
      rw [crawlLoop] at h
      split at h
      · rcases ih s r h with h2 | h2
        · exact Or.inl h2
        · exact Or.inr (List.mem_cons_of_mem _ h2)
      · split at h
        · exact Or.inl (by simpa using h)
        · split at h
          · exact Or.inl (by simpa using h)
          · rcases ih _ r h with h2 | h2
            · simp only [List.mem_append, List.mem_singleton] at h2
              rcases h2 with h3 | h3
              · exact Or.inl h3
              · subst h3
                exact Or.inr (by simp [crawlPage_url])
            · exact Or.inr (List.mem_cons_of_mem _ h2)

/-- C10: the frontier is exactly one level deep — every crawled page's
URL came out of the search expansion of one of the derived dorks; leads
discovered inside crawled pages are never enqueued (the URL queue is
complete before the first fetch in this model, and this theorem shows
every fetched URL traces back to a search result). -/
theorem deepCrawl_frontier_one_level (env : CrawlEnv) (target : String)
    (initialEmails initialUsernames : List String) (r : CrawlResult)
    (hr : r ∈ (deepCrawl env target initialEmails initialUsernames).crawledPages) :
    ∃ d ∈ generateCryptoScamDorks target initialEmails,
      r.url ∈ executeSearch env d := by
  have h1 : r ∈ (crawlLoop env
      (buildQueue env [] (generateCryptoScamDorks target initialEmails) [] 0).1
      ⟨[], [], 0, initialEmails, target :: initialUsernames, [], [], [],
        (buildQueue env [] (generateCryptoScamDorks target initialEmails) [] 0).2⟩).crawledPages := hr
  rcases crawlLoop_crawled_sub env _ _ r h1 with h2 | h2
  · simp at h2
  · rcases buildQueue_mem env [] _ [] 0 r.url h2 with h3 | h3
    · simp at h3
    · exact h3

/-- The regex-engine oracle that finds nothing, for concrete runs. -/
def emptyMatchers : TextMatchers :=
  { emailMatches := fun _ => []
    usernameMatches := fun _ => []
    socialMatches := fun _ => [] }

/-- A concrete crawl environment: every query returns one fixed URL and
every page fetch fails. -/
def failFetchEnv : CrawlEnv :=
  { matchers := emptyMatchers
    search := fun _ => ["http://lead.example/page"]
    fetch := fun _ => none
    timeUp := fun _ => false }

/-- Closed witness for `deepCrawl_frontier_one_level` on a concrete run
that crawls one page. -/
theorem deepCrawl_frontier_one_level_witness :
    ∃ d ∈ generateCryptoScamDorks "target1" [],
      "http://lead.example/page" ∈ executeSearch failFetchEnv d :=
  deepCrawl_frontier_one_level failFetchEnv "target1" [] []
    (emptyCrawlResult "http://lead.example/page") (by decide)

theorem crawlLoop_pages_are_crawlPage (env : CrawlEnv) :
    ∀ (q : List String) (s : CrawlState),
      (∀ r ∈ s.crawledPages, r = crawlPage env.matchers env.fetch r.url) →
      ∀ r ∈ (crawlLoop env q s).crawledPages,
        r = crawlPage env.matchers env.fetch r.url := by
  intro q
  induction q with
  | nil => intro s h; simpa [crawlLoop] using h
  | cons url rest ih =>
      intro s h
      rw [crawlLoop]
      split
      · exact ih s h
      · split
        · simpa using h
        · split
          · simpa using h
          · apply ih
            intro r hr
            simp only [List.mem_append, List.mem_singleton] at hr
            rcases hr with hr | hr
            · exact h r hr
            · subst hr
              rw [crawlPage_url]

theorem crawlLoop_pages_count (env : CrawlEnv) :
    ∀ (q : List String) (s : CrawlState),
      s.pagesAnalyzed = s.crawledPages.length →
      (crawlLoop env q s).pagesAnalyzed
        = (crawlLoop env q s).crawledPages.length := by
  intro q
  induction q with
  | nil => intro s h; simpa [crawlLoop] using h
  | cons url rest ih =>
      intro s h
      rw [crawlLoop]
      split
      · exact ih s h
      · split
        · simpa using h
        · split
          · simpa using h
          · apply ih
            simp [h]

/-- C3 counterexample: on a concrete run whose only discovered URL fails
to fetch, the recorded `CrawlResult` is the all-empty record — the
source's `CrawlResult` interface has exactly eight fields (url, title,
emails, usernames, wallets, scamMentions, socialLinks, rawSnippet) and no
error field, so no error string is recorded anywhere (`errors` of the run
stays empty as well), contradicting the claim that the page's record has
"an error field set to an error string".  The page still counts toward
`pagesAnalyzed`, so the loop did continue. -/
theorem crawl_failure_records_no_error_string :
    crawlPage failFetchEnv.matchers failFetchEnv.fetch "http://lead.example/page"
      = emptyCrawlResult "http://lead.example/page" ∧
    (deepCrawl failFetchEnv "target1" [] []).errors = [] ∧
    (deepCrawl failFetchEnv "target1" [] []).pagesAnalyzed = 1 := by
  refine ⟨rfl, rfl, by decide⟩

/-- C3 amended: for every URL whose page fetch fails, the crawler records
a `CrawlResult` equal to the untouched initial result object (title and
all extraction fields empty; the source's `CrawlResult` has no error
field, so no error string exists), the page still counts toward
`pagesAnalyzed` (one count per recorded page), and the run returns
normally — the failure never aborts the crawl. -/
theorem crawl_failure_empty_result_loop_continues
    (env : CrawlEnv) (target : String)
    (initialEmails initialUsernames : List String) (r : CrawlResult)
    (hr : r ∈ (deepCrawl env target initialEmails initialUsernames).crawledPages)
    (hfail : env.fetch r.url = none) :
    r = emptyCrawlResult r.url ∧
    (deepCrawl env target initialEmails initialUsernames).pagesAnalyzed
      = (deepCrawl env target initialEmails initialUsernames).crawledPages.length := by
  constructor
  · have hr2 : r ∈ (crawlLoop env
        (buildQueue env [] (generateCryptoScamDorks target initialEmails) [] 0).1
        ⟨[], [], 0, initialEmails, target :: initialUsernames, [], [], [],
          (buildQueue env [] (generateCryptoScamDorks target initialEmails) [] 0).2⟩).crawledPages := hr
    have h1 := crawlLoop_pages_are_crawlPage env _ _ (by simp) r hr2
    have h2 : crawlPage env.matchers env.fetch r.url = emptyCrawlResult r.url := by
      simp [crawlPage, hfail]
    exact h1.trans h2
  · show (crawlLoop env _ _).pagesAnalyzed = (crawlLoop env _ _).crawledPages.length
    exact crawlLoop_pages_count env _ _ (by simp)

/-- Closed witness for `crawl_failure_empty_result_loop_continues` on the
concrete failing-fetch run. -/
theorem crawl_failure_empty_result_loop_continues_witness :
    emptyCrawlResult "http://lead.example/page"
      = emptyCrawlResult (emptyCrawlResult "http://lead.example/page").url ∧
    (deepCrawl failFetchEnv "target1" [] []).pagesAnalyzed
      = (deepCrawl failFetchEnv "target1" [] []).crawledPages.length :=
  crawl_failure_empty_result_loop_continues failFetchEnv "target1" [] []
    (emptyCrawlResult "http://lead.example/page") (by decide) rfl

/-- A page whose text contains the keywords "scam" and "scammer": both
per-keyword context windows cover the whole 12-character text, and both
contexts re-derive to the keyword "scam". -/
def scamScamerPage : FetchedPage :=
  { title := "p", html := "", text := "scam scammer" }

/-- A concrete crawl environment whose single discovered page mentions
both "scam" and "scammer". -/
def dupMentionEnv : CrawlEnv :=
  { matchers := emptyMatchers
    search := fun _ => ["http://dup.example/a"]
    fetch := fun _ => some scamScamerPage
    timeUp := fun _ => false }

/-- C8 counterexample: a single crawled page containing "scam scammer"
produces two scam mentions whose `(keyword, url)` pairs are both
`("scam", "http://dup.example/a")` — the keyword of an aggregated
mention is re-derived from the context window, and the "scam" and
"scammer" windows both re-derive to "scam", so the result list is not
deduplicated by `(keyword, sourceUrl)` and the same page is counted
twice for the same keyword. -/
theorem scamMentions_duplicate_keyword_url :
    ((deepCrawl dupMentionEnv "target1" [] []).scamMentions.map
      (fun m => (m.keyword, m.url)))
      = [("scam", "http://dup.example/a"), ("scam", "http://dup.example/a")] := by
  decide

/-- C8 amended: the only per-page bound that does hold is one context
window per entry of the `SCAM_KEYWORDS` table — every crawled page
contributes at most `SCAM_KEYWORDS.length` (15) scam mentions; no
deduplication by `(keyword, sourceUrl)` is performed on the aggregated
list. -/
theorem crawlPage_mentions_bounded (m : TextMatchers)
    (fetch : String → Option FetchedPage) (url : String) :
    (crawlPage m fetch url).scamMentions.length ≤ SCAM_KEYWORDS.length := by
  unfold crawlPage
  cases fetch url with
  | none => simp [emptyCrawlResult]
  | some p =>
      simp only [List.length_map]
      exact List.length_filterMap_le _ _

theorem takeHex_spec :
    ∀ (n : Nat) (l h r : List Char), takeHex n l = some (h, r) →
      h.length = n ∧ h.all isHexDigit = true := by
  intro n
  induction n with
  | zero =>
      intro l h r heq
      simp only [takeHex, Option.some.injEq, Prod.mk.injEq] at heq
      obtain ⟨rfl, rfl⟩ := heq
      simp
  | succ k ih =>
      intro l h r heq
      cases l with
      | nil => simp [takeHex] at heq
      | cons c rest =>
          simp only [takeHex] at heq
          by_cases hc : isHexDigit c
          · rw [if_pos hc] at heq
            cases htk : takeHex k rest with
            | none => rw [htk] at heq; simp at heq
            | some pr =>
                obtain ⟨h0, r0⟩ := pr
                rw [htk] at heq
                simp only [Option.some.injEq, Prod.mk.injEq] at heq
                obtain ⟨hh, hr⟩ := heq
                obtain ⟨hl, ha⟩ := ih rest h0 r0 htk
                subst hh
                constructor
                · simp [hl]
                · simp [List.all_cons, hc, ha]
          · rw [if_neg hc] at heq
            simp at heq

theorem ethTryMatch_spec (l tok r : List Char)
    (heq : ethTryMatch l = some (tok, r)) :
    ∃ h, tok = '0' :: 'x' :: h ∧ h.length = 40 ∧ h.all isHexDigit = true := by
  unfold ethTryMatch at heq
  split at heq
  · rename_i rest2
    cases htk : takeHex 40 rest2 with
    | none => rw [htk] at heq; simp at heq
    | some pr =>
        obtain ⟨h0, r0⟩ := pr
        rw [htk] at heq
        simp only [Option.some.injEq, Prod.mk.injEq] at heq
        obtain ⟨hl, ha⟩ := takeHex_spec 40 rest2 h0 r0 htk
        exact ⟨h0, heq.1.symm, hl, ha⟩
  · simp at heq

theorem ethScanAux_shape :
    ∀ (fuel : Nat) (l t : List Char), t ∈ ethScanAux fuel l →
      ∃ h, t = '0' :: 'x' :: h ∧ h.length = 40 ∧ h.all isHexDigit = true := by
  intro fuel
  induction fuel with
  | zero => intro l t ht; simp [ethScanAux] at ht
  | succ k ih =>
      intro l t ht
      cases l with
      | nil => simp [ethScanAux] at ht
      | cons c rest =>
          simp only [ethScanAux] at ht
          cases hm : ethTryMatch (c :: rest) with
          | none =>
              rw [hm] at ht
              exact ih rest t ht
          | some pr =>
              obtain ⟨tok, r⟩ := pr
              rw [hm] at ht
              rcases List.mem_cons.mp ht with h | h
              · subst h
                exact ethTryMatch_spec _ _ _ hm
              · exact ih r t h

theorem ethScan_shape (l t : List Char) (ht : t ∈ ethScan l) :
    ∃ h, t = '0' :: 'x' :: h ∧ h.length = 40 ∧ h.all isHexDigit = true :=
  ethScanAux_shape l.length l t ht

/-- The first 41 characters (`0x` plus 39 hex digits) shared by the six
addresses of the cap counterexample. -/
def addrStem : String := "0xaaaaaaaaaaaaaaaaaaaaaaaaaaaaaaaaaaaaaaa"

/-- A page text holding six distinct ethereum-style addresses. -/
def sixAddrText : String :=
  addrStem ++ "1 " ++ addrStem ++ "2 " ++ addrStem ++ "3 " ++
  addrStem ++ "4 " ++ addrStem ++ "5 " ++ addrStem ++ "6"

def sixAddrPage : FetchedPage :=
  { title := "", html := "", text := sixAddrText }

set_option maxRecDepth 100000 in
/-- C9 counterexample: the sixth distinct `0x`+40-hex token of a page is
a match of the ethereum pattern in the page text, yet it is absent from
the page's extracted wallets — `crawlPage` keeps only the first five
distinct matches (`slice(0, 5)`), so the claim's universal half ("for
every page text containing a 0x-prefixed 40-hex token, that token
appears in the extracted wallets") fails at this input. -/
theorem wallets_cap_drops_sixth_address :
    (addrStem ++ "6").toList ∈ ethScan sixAddrText.toList ∧
    (addrStem ++ "6") ∉
      (crawlPage emptyMatchers (fun _ => some sixAddrPage)
        "http://wallets.example/").wallets := by
  decide

/-- C9 amended: the extracted wallets of a crawled page are exactly the
first five distinct matches of the `0x`+40-hex pattern in the page text:
every extracted wallet is such a match (in particular it starts with
`'0'`, a character outside the base58 alphabet, so a base58-only token is
never extracted — the `solanaAddress` pattern is declared but never
applied), and whenever the page has at most five distinct matches, every
match is extracted. -/
theorem crawlPage_wallets_eth_only (m : TextMatchers)
    (fetch : String → Option FetchedPage) (url : String) :
    (∀ w ∈ (crawlPage m fetch url).wallets,
      (∃ h, w.toList = '0' :: 'x' :: h ∧ h.length = 40 ∧
        h.all isHexDigit = true) ∧
      w.toList.all isBase58Char = false) ∧
    (∀ p, fetch url = some p →
      (dedup (ethScan p.text.toList)).length ≤ 5 →
      ∀ t ∈ ethScan p.text.toList,
        String.mk t ∈ (crawlPage m fetch url).wallets) := by
  constructor
  · intro w hw
    cases hf : fetch url with
    | none =>
        rw [crawlPage, hf] at hw
        simp [emptyCrawlResult] at hw
    | some p =>
        rw [crawlPage, hf] at hw
        simp only [List.mem_map] at hw
        obtain ⟨t, ht, rfl⟩ := hw
        have ht2 : t ∈ ethScan p.text.toList :=
          mem_dedup.mp (List.mem_of_mem_take ht)
        obtain ⟨h, rfl, hl, ha⟩ := ethScan_shape _ _ ht2
        refine ⟨⟨h, rfl, hl, ha⟩, ?_⟩
        show (('0' :: 'x' :: h).all isBase58Char) = false
        simp [List.all_cons, isBase58Char]
  · intro p hf hlen t ht
    rw [crawlPage, hf]
    show String.mk t ∈ ((dedup (ethScan p.text.toList)).take 5).map String.mk
    rw [List.take_of_length_le hlen]
    exact List.mem_map_of_mem _ (mem_dedup.mpr ht)

/-- A page text holding exactly one ethereum-style address. -/
def oneAddrPage : FetchedPage :=
  { title := "", html := "", text := "wallet " ++ addrStem ++ "1 end" }

/-- Closed witness for `crawlPage_wallets_eth_only` at a page with one
address. -/
theorem crawlPage_wallets_eth_only_witness :
    (∃ h, (addrStem ++ "1").toList = '0' :: 'x' :: h ∧ h.length = 40 ∧
      h.all isHexDigit = true) ∧
    (addrStem ++ "1").toList.all isBase58Char = false :=
  (crawlPage_wallets_eth_only emptyMatchers (fun _ => some oneAddrPage)
    "http://wallets.example/").1 (addrStem ++ "1") (by decide)

/-! ## Claims about the master aggregation -/

end Snubot
